import Mathlib

/-!
# Verification of the mefs-sdk-go request-execution core

A shallow embedding of the retry/execution pipeline of `api.go` and the
bucket-location cache of `bucket-cache.go` from memoio/mefs-sdk-go, together
with proofs of the specification's claims about them.

Modelling conventions:
* Go machine state that the claims observe (the per-call request metadata,
  the bucket-location cache, the response-body stream) is passed explicitly.
* External effects (the HTTP transport's answer to each attempt, the outcome
  of seeking the request body, the output of the external error-body decoder)
  are inputs of the model: an `AttemptEnv` value per attempt.
* Go `(value, error)` returns become explicit `Option`-pairs or sum types.
* Helpers of the repository that are not present in the provided sources
  (the retry timer, `MaxRetry`, the retryability classifiers, request
  construction) are modelled from the spec; each such definition's doc
  comment starts with `Modelled from the spec:`.
-/

/-- Go errors that the modelled code creates or passes along, as a sum type
(`error` interface values distinguished by their provenance). -/
inductive GoError where
  /-- `*url.Error` returned by the transport: operation, URL, inner message. -/
  | urlError (op url msg : String)
  /-- `ErrInvalidArgument` — invalid-argument error created by the client. -/
  | invalidArgument (msg : String)
  /-- The error returned by a failing `bodySeeker.Seek(0, 0)`. -/
  | seekError (msg : String)
  /-- The error returned by a failing `ioutil.ReadAll(res.Body)`. -/
  | readError (msg : String)
  /-- A transport error other than `*url.Error`. -/
  | transportError (msg : String)
  /-- A decoded gateway error (`ErrorResponse`): code and region hint. -/
  | errorResponse (code region : String)
  /-- The error returned by a failing `xmlDecoder`. -/
  | xmlDecodeError (msg : String)
  deriving DecidableEq, Repr

/-- The bucket-location cache contents: Go's `map[string]string` as a finite
partial map.  `bucket-cache.go`, field `items` of `bucketLocationCache`. -/
def BucketMap : Type := String → Option String

/-- `bucketLocationCache.Get` (bucket-cache.go): the comma-ok map read;
`none` plays the role of `ok == false`. -/
def cacheGet (m : BucketMap) (b : String) : Option String := m b

/-- `bucketLocationCache.Set` (bucket-cache.go): `r.items[bucketName] = location`. -/
def cacheSet (m : BucketMap) (b r : String) : BucketMap :=
  fun k => if k = b then some r else m k

/-- `bucketLocationCache.Delete` (bucket-cache.go): `delete(r.items, bucketName)`. -/
def cacheDelete (m : BucketMap) (b : String) : BucketMap :=
  fun k => if k = b then none else m k

/-- `n` successive calls of `Set(b, r)` with the same arguments. -/
def cacheSetIter (m : BucketMap) (b r : String) : Nat → BucketMap
  | 0 => m
  | n + 1 => cacheSet (cacheSetIter m b r n) b r

/-- The three error codes of the region-correction `switch` in
`executeMethod` (api.go) and in `processBucketLocationResponse`
(bucket-cache.go); the two `fallthrough` cases plus the last one. -/
def regionMismatchCodes : List String :=
  ["AuthorizationHeaderMalformed", "InvalidRegion", "AccessDenied"]

/-- The inputs of `processBucketLocationResponse` that the function reads
from a (non-nil) `*http.Response`: the status code, the external decoder's
output on the error body (`ToErrorResponse(httpRespToErrorResponse(...))`:
code and region hint), and the `xmlDecoder` outcome on the success body
(`Except.error` when decoding fails). -/
structure LocRespIn where
  statusCode : Nat
  errCode : String
  errRegion : String
  xmlLoc : Except String String
  deriving Repr

/-- Outcome of `processBucketLocationResponse`: either the Go return pair
`(bucketLocation, err)`, or the nil-pointer fault the source runs into when
`resp == nil` (it then still evaluates `resp.Body`). -/
inductive LocResult where
  | nilDeref
  | ret (location : String) (err : Option GoError)
  deriving DecidableEq, Repr

/-- `processBucketLocationResponse` (bucket-cache.go lines 67-112), with the
decoder outputs supplied as inputs (the spec treats the error-body decoding
as an external collaborator). -/
def processBucketLocationResponse (resp : Option LocRespIn) : LocResult :=
  match resp with
  | none => LocResult.nilDeref
  | some r =>
    if r.statusCode ≠ 200 then
      if regionMismatchCodes.contains r.errCode then
        if r.errRegion = "" then LocResult.ret "us-east-1" none
        else LocResult.ret r.errRegion none
      else LocResult.ret "" (some (GoError.errorResponse r.errCode r.errRegion))
    else
      match r.xmlLoc with
      | Except.error msg => LocResult.ret "" (some (GoError.xmlDecodeError msg))
      | Except.ok lc =>
        let location := if lc = "" then "us-east-1" else lc
        let location2 := if location = "EU" then "eu-west-1" else location
        LocResult.ret location2 none

/-- Modelled from the spec: the text of the shared `reportIssue` constant is
not in the provided sources; only its use in the "Response is empty" message
matters here. -/
def reportIssue : String := "Please report this issue."

/-- Go's `strings.Contains`, via `splitOn`: a pattern occurs in `s` iff
splitting on it yields more than one piece. -/
def strContains (s pat : String) : Bool := 2 ≤ (s.splitOn pat).length

/-- What `Client.do` reads from a successful transport response. -/
structure RawResp where
  statusCode : Nat
  deriving DecidableEq, Repr

/-- The client fields the modelled code reads: `region`, `bucketLocCache`,
and the tracing flags used by `do` (api.go `Client`). -/
structure Client where
  region : String
  bucketLocCache : BucketMap
  isTraceEnabled : Bool
  traceErrorsOnly : Bool

/-- `Client.do` (api.go lines 512-544).  `tresp`/`terr` are the pair the
underlying `httpClient.Do` produced, `dumpErr` is the outcome of the
(external) `dumpHTTP` trace writer when tracing is on. -/
def clientDo (c : Client) (tresp : Option RawResp) (terr : Option GoError)
    (dumpErr : Option GoError) : Option RawResp × Option GoError :=
  match terr with
  | some e =>
    match e with
    | GoError.urlError op u msg =>
      if strContains msg "EOF" then
        (none, some (GoError.urlError op u
          ("Connection closed by foreign host " ++ u ++ ". Retry again.")))
      else (none, some (GoError.urlError op u msg))
    | e2 => (none, some e2)
  | none =>
    match tresp with
    | none => (none, some (GoError.invalidArgument ("Response is empty. " ++ reportIssue)))
    | some r =>
      if c.isTraceEnabled ∧ ¬(c.traceErrorsOnly ∧ r.statusCode = 200) then
        match dumpErr with
        | some e2 => (none, some e2)
        | none => (some r, none)
      else (some r, none)

/-- Modelled from the spec: the fixed maximum attempt count (`MaxRetry`,
defined in repository code outside the provided sources); the spec calls it a
"fixed maximum (default small constant, e.g. 5)". -/
def MaxRetry : Nat := 5

/-- What `executeMethod` observes about `metadata.contentBody` when it is
non-nil: whether the value implements `io.Seeker`, and whether it is one of
`os.Stdin`, `os.Stdout`, `os.Stderr`. -/
structure BodyInfo where
  isSeeker : Bool
  isStdStream : Bool
  deriving DecidableEq, Repr

/-- `requestMetadata` (api.go lines 432-449), restricted to the fields the
modelled control flow reads or writes. -/
structure RequestMetadata where
  bucketName : String
  objectName : String
  bucketLocation : String
  contentBody : Option BodyInfo
  deriving DecidableEq, Repr

/-- The `isRetryable` flag computed at the top of `executeMethod`
(api.go lines 557-571): a non-nil body is retryable iff it is an `io.Seeker`
and is not one of the standard streams; a nil body leaves the flag false. -/
def isRetryableOf (body : Option BodyInfo) : Bool :=
  match body with
  | none => false
  | some b => b.isSeeker && !b.isStdStream

/-- The `reqRetry` budget computed at the top of `executeMethod`:
`MaxRetry`, collapsed to 1 only inside the non-nil-body branch when the body
is not retryable (api.go lines 559-571). -/
def reqRetryOf (body : Option BodyInfo) : Nat :=
  match body with
  | none => MaxRetry
  | some b => if b.isSeeker && !b.isStdStream then MaxRetry else 1

/-- `successStatus` (api.go lines 547-551): 200, 204, 206. -/
def successStatus : List Nat := [200, 204, 206]

/-- What one attempt's transport response contains, with the external
pieces supplied as inputs: the raw status code, the bytes `ioutil.ReadAll`
would produce from the body, whether that read fails, and the external error
decoder's output (`ToErrorResponse(httpRespToErrorResponse(...))`: code and
region hint) on the buffered bytes. -/
structure RespIn where
  statusCode : Nat
  bodyBytes : List Nat
  readErr : Option String
  errCode : String
  errRegion : String
  deriving DecidableEq, Repr

/-- What `c.do(req)` yields on one attempt: a transport error (already
rewritten by `do`; `httpRetryable` is `isHTTPReqErrorRetryable`'s verdict on
it, an external classification whose code is outside the provided sources) or
a response. -/
inductive DoResult where
  | transportErr (httpRetryable : Bool) (e : GoError)
  | response (r : RespIn)
  deriving DecidableEq, Repr

/-- The external events of one attempt: the outcome of
`bodySeeker.Seek(0, 0)` (`some msg` on failure; only consulted when the body
is retryable) and the outcome of `c.do(req)`. -/
structure AttemptEnv where
  seekFails : Option String
  outcome : DoResult
  deriving DecidableEq, Repr

/-- The state of the response body stream as the caller of `executeMethod`
(or the error decoder) sees it: either the untouched live transport stream,
or the in-memory buffered copy (`ioutil.NopCloser(bytes.NewReader(...))`)
with its read position. -/
inductive BodyState where
  | original (content : List Nat)
  | buffered (content : List Nat) (pos : Nat)
  deriving DecidableEq, Repr

/-- A response as handed onward by `executeMethod`: status, body stream
state, and the fate of the original transport body (`origClosed`,
`origFullyRead` record whether `ioutil.ReadAll` + `closeResponse` drained
and closed it). -/
structure RespOut where
  statusCode : Nat
  body : BodyState
  origClosed : Bool
  origFullyRead : Bool
  deriving DecidableEq, Repr

/-- The response `executeMethod` returns on a success status: the raw
transport response, body untouched and still open (ownership moves to the
caller). -/
def mkSuccessResp (r : RespIn) : RespOut :=
  { statusCode := r.statusCode, body := BodyState.original r.bodyBytes,
    origClosed := false, origFullyRead := false }

/-- The response after the drain-and-buffer sequence of api.go lines
628-645: original fully read and closed, body replaced by the buffered copy
at position `pos`. -/
def mkBufferedResp (r : RespIn) (pos : Nat) : RespOut :=
  { statusCode := r.statusCode, body := BodyState.buffered r.bodyBytes pos,
    origClosed := true, origFullyRead := true }

/-- Modelled from the spec: `isS3CodeRetryable` is repository code outside
the provided sources; per the spec's error-classifier contract, server-side
codes (internal errors, slow-down/throttling, service-unavailable
equivalents) are retryable and access-control/malformed-request codes are
not. -/
def isS3CodeRetryable (code : String) : Bool :=
  code ∈ ["RequestError", "RequestTimeout", "Throttling", "ThrottlingException",
          "RequestLimitExceeded", "RequestThrottled", "InternalError",
          "SlowDown", "ServiceUnavailable"]

/-- Modelled from the spec: `isHTTPStatusRetryable` is repository code
outside the provided sources; per the spec, HTTP 5xx statuses plus
429-equivalent throttling are retryable. -/
def isHTTPStatusRetryable (status : Nat) : Bool :=
  (500 ≤ status && status ≤ 599) || status = 429

/-- What one iteration of the retry loop decides: fault (nil-pointer
dereference), return from `executeMethod` with `(resp, err)`, or `continue`
with the (possibly updated) metadata, cache, and the current `res`/`err`
values carried into the next iteration. -/
inductive StepNext where
  | fault
  | ret (resp : Option RespOut) (err : Option GoError)
  | retry (md : RequestMetadata) (cache : BucketMap) (resp : Option RespOut) (err : Option GoError)

/-- One iteration's decision plus the response value handed to the error
decoder during that iteration (`none` when the decoder was not reached). -/
structure StepOut where
  next : StepNext
  decoderInput : Option RespOut

/-- The tail of the loop body after the region-correction `switch`
(api.go lines 681-692): code retryability, then status retryability, then
`break` — which returns `(res, err)` with `res` the buffered response and
the outer `err` still nil on this path. -/
def classifyNext (md : RequestMetadata) (cache : BucketMap) (errCode : String)
    (statusCode : Nat) (resFinal : RespOut) : StepNext :=
  if isS3CodeRetryable errCode then StepNext.retry md cache (some resFinal) none
  else if isHTTPStatusRetryable statusCode then StepNext.retry md cache (some resFinal) none
  else StepNext.ret (some resFinal) none

/-- The region-correction logic of api.go lines 653-679 followed by the
classifier tail: only when the client has no fixed region and the decoded
code is one of the three region-mismatch codes; with a non-empty bucket name
and region hint, a cached entry is overwritten and the attempt retried,
while a cache miss falls through to the classifiers; with an empty bucket
name (or empty hint), the per-call `metadata.bucketLocation` is updated and
the attempt retried whenever it differs from the hint. -/
def regionFixNext (region : String) (md : RequestMetadata) (cache : BucketMap)
    (errCode errRegion : String) (resFinal : RespOut) : StepNext :=
  if region = "" ∧ regionMismatchCodes.contains errCode then
    if md.bucketName ≠ "" ∧ errRegion ≠ "" then
      if (cacheGet cache md.bucketName).isSome then
        StepNext.retry md (cacheSet cache md.bucketName errRegion) (some resFinal) none
      else classifyNext md cache errCode (resFinal.statusCode) resFinal
    else
      if errRegion ≠ md.bucketLocation then
        StepNext.retry { md with bucketLocation := errRegion } cache (some resFinal) none
      else classifyNext md cache errCode (resFinal.statusCode) resFinal
  else classifyNext md cache errCode (resFinal.statusCode) resFinal

/-- The loop body from the request-instantiation step on (api.go lines
604-692).  In the source, `var req *http.Request` leaves `req` nil and
`req = req.WithContext(ctx)` copies `*req` through the nil receiver, a
nil-pointer dereference; `instPanics = true` is that faithful behaviour.
`instPanics = false` is the request construction modelled from the spec
("attach the context, send the request through the transport"; the
construction code is outside the provided sources), after which the attempt
proceeds with the transport outcome. -/
def execStepCore (region : String) (instPanics : Bool) (outcome : DoResult)
    (md : RequestMetadata) (cache : BucketMap) : StepOut :=
  if instPanics then { next := StepNext.fault, decoderInput := none }
  else
    match outcome with
    | DoResult.transportErr retr e =>
      if retr then { next := StepNext.retry md cache none (some e), decoderInput := none }
      else { next := StepNext.ret none (some e), decoderInput := none }
    | DoResult.response r =>
      if successStatus.contains r.statusCode then
        { next := StepNext.ret (some (mkSuccessResp r)) none, decoderInput := none }
      else
        match r.readErr with
        | some msg => { next := StepNext.ret none (some (GoError.readError msg)), decoderInput := none }
        | none =>
          let resBuffered := mkBufferedResp r 0
          let resAfterDecode := mkBufferedResp r r.bodyBytes.length
          let resFinal := { resAfterDecode with body := BodyState.buffered r.bodyBytes 0 }
          { next := regionFixNext region md cache r.errCode r.errRegion resFinal,
            decoderInput := some resBuffered }

/-- One full iteration of the retry loop (api.go lines 591-693): the seek of
a retryable body first — a failing seek returns `(nil, err)` at once — then
the rest of the body via `execStepCore`. -/
def execStep (region : String) (isRetryable instPanics : Bool) (e : AttemptEnv)
    (md : RequestMetadata) (cache : BucketMap) : StepOut :=
  if isRetryable then
    match e.seekFails with
    | some msg => { next := StepNext.ret none (some (GoError.seekError msg)), decoderInput := none }
    | none => execStepCore region instPanics e.outcome md cache
  else execStepCore region instPanics e.outcome md cache

/-- Outcome of a full `executeMethod` call.  `attempts` counts the loop
iterations that began.  `done` carries the Go return pair `(res, err)` plus
the final per-call metadata and cache contents; `nilDerefFault` is the
nil-pointer fault of the source's request-instantiation step. -/
inductive ExecResult where
  | nilDerefFault (attempts : Nat)
  | done (attempts : Nat) (resp : Option RespOut) (err : Option GoError)
      (md : RequestMetadata) (cache : BucketMap)

/-- The retry loop from attempt index `i` with `fuel` remaining go-signals.
Modelled from the spec: the retry timer (`newRetryTimer`, outside the
provided sources) emits one go-signal per allowed attempt, at most `reqRetry`
of them, so the loop is bounded recursion on the remaining budget; running
out of signals falls out of the loop and returns the carried `(res, err)`. -/
def execLoopFrom (region : String) (isRetryable instPanics : Bool)
    (env : Nat → AttemptEnv) :
    Nat → Nat → RequestMetadata → BucketMap → Option RespOut → Option GoError → ExecResult
  | 0, i, md, cache, res, err => ExecResult.done i res err md cache
  | fuel + 1, i, md, cache, _res, _err =>
    match (execStep region isRetryable instPanics (env i) md cache).next with
    | StepNext.fault => ExecResult.nilDerefFault (i + 1)
    | StepNext.ret r e => ExecResult.done (i + 1) r e md cache
    | StepNext.retry md2 cache2 r e =>
      execLoopFrom region isRetryable instPanics env fuel (i + 1) md2 cache2 r e

/-- `executeMethod` (api.go lines 556-695) with the request-instantiation
step as a parameter: compute `isRetryable` and `reqRetry` from the body,
then run the retry loop against the per-attempt environment.  The `method`
argument is carried for fidelity; the modelled control flow never reads it. -/
def executeMethodGen (instPanics : Bool) (c : Client) (_method : String)
    (md : RequestMetadata) (env : Nat → AttemptEnv) : ExecResult :=
  execLoopFrom c.region (isRetryableOf md.contentBody) instPanics env
    (reqRetryOf md.contentBody) 0 md c.bucketLocCache none none

/-- `executeMethod` as the source has it: the request-instantiation step
dereferences the nil `req`. -/
def executeMethod : Client → String → RequestMetadata → (Nat → AttemptEnv) → ExecResult :=
  executeMethodGen true

/-- Modelled from the spec: `executeMethod` with the request construction
the spec describes (the construction code is outside the provided sources),
so an attempt that passes the seek reaches the transport. -/
def executeMethodSpec : Client → String → RequestMetadata → (Nat → AttemptEnv) → ExecResult :=
  executeMethodGen false

/-- Attempt count of an outcome. -/
def attemptsOf : ExecResult → Nat
  | ExecResult.nilDerefFault n => n
  | ExecResult.done n _ _ _ _ => n

/-- Final per-call metadata of a completed call (`none` on the fault). -/
def finalMdOf : ExecResult → Option RequestMetadata
  | ExecResult.nilDerefFault _ => none
  | ExecResult.done _ _ _ md _ => some md

/-- The `(res, err)` pair of a completed call (`none` on the fault). -/
def finalPairOf : ExecResult → Option (Option RespOut × Option GoError)
  | ExecResult.nilDerefFault _ => none
  | ExecResult.done _ r e _ _ => some (r, e)

/-- The response value a loop decision carries onward (to the caller on
`ret`/`break`, into the next iteration on `retry`). -/
def stepResp : StepNext → Option RespOut
  | StepNext.fault => none
  | StepNext.ret r _ => r
  | StepNext.retry _ _ r _ => r

/-- Modelled from the spec: the region an attempt uses.  Request
construction (`newRequest`) is outside the provided sources; per the spec
the bucket-location cache is consulted for a named bucket's region (and a
region-mismatch retry "must use the updated region"), while a call without
a bucket name uses the per-call metadata region. -/
def attemptRegion (md : RequestMetadata) (cache : BucketMap) : String :=
  if md.bucketName ≠ "" then (cacheGet cache md.bucketName).getD md.bucketLocation
  else md.bucketLocation

/-! Concrete test vectors used by the closed statements below. -/

/-- The empty bucket-location cache (a fresh client's `newBucketLocationCache`). -/
def emptyCache : BucketMap := fun _ => none

/-- A client with no fixed region, an empty cache, and tracing off. -/
def testClient : Client :=
  { region := "", bucketLocCache := emptyCache, isTraceEnabled := false, traceErrorsOnly := false }

/-- A healthy 200 transport response. -/
def resp200 : RespIn :=
  { statusCode := 200, bodyBytes := [], readErr := none, errCode := "", errRegion := "" }

/-- A 403 response whose body decodes to `AccessDenied` with region hint
`eu-west-1`. -/
def respAccessDenied : RespIn :=
  { statusCode := 403, bodyBytes := [60, 69, 114, 114, 62], readErr := none,
    errCode := "AccessDenied", errRegion := "eu-west-1" }

/-- An attempt whose seek succeeds and whose transport returns `resp200`. -/
def aOk : AttemptEnv := { seekFails := none, outcome := DoResult.response resp200 }

/-- An attempt whose seek succeeds and whose transport returns
`respAccessDenied`. -/
def aDenied : AttemptEnv := { seekFails := none, outcome := DoResult.response respAccessDenied }

/-- An attempt whose body seek fails. -/
def aSeekFail : AttemptEnv := { seekFails := some "seek failed", outcome := DoResult.response resp200 }

/-- Environment: every attempt is `aOk`. -/
def envOk : Nat → AttemptEnv := fun _ => aOk

/-- Environment: every attempt is `aDenied`. -/
def envDenied : Nat → AttemptEnv := fun _ => aDenied

/-- Environment: every attempt's seek fails. -/
def envSeekFail : Nat → AttemptEnv := fun _ => aSeekFail

/-- A seekable, non-standard-stream body. -/
def seekableBody : BodyInfo := { isSeeker := true, isStdStream := false }

/-- A standard-stream body (e.g. `os.Stdin`, which is seekable by type). -/
def stdinBody : BodyInfo := { isSeeker := true, isStdStream := true }

/-- Metadata of a bodyless call on bucket `bucket01`. -/
def mdPlain : RequestMetadata :=
  { bucketName := "bucket01", objectName := "", bucketLocation := "", contentBody := none }

/-- Metadata naming bucket `bucket01` with per-call region `us-east-1`. -/
def mdNamedBucket : RequestMetadata :=
  { bucketName := "bucket01", objectName := "", bucketLocation := "us-east-1", contentBody := none }

/-- Metadata with no bucket name and per-call region `us-east-1`. -/
def mdNoBucket : RequestMetadata :=
  { bucketName := "", objectName := "", bucketLocation := "us-east-1", contentBody := none }

/-- Metadata carrying a retryable (seekable) body. -/
def mdSeekable : RequestMetadata :=
  { bucketName := "bucket01", objectName := "", bucketLocation := "", contentBody := some seekableBody }

/-- Metadata whose body is a standard stream. -/
def mdStdin : RequestMetadata :=
  { bucketName := "bucket01", objectName := "", bucketLocation := "", contentBody := some stdinBody }

/-- A cache already holding `bucket01 ↦ us-east-1`. -/
def cacheWithBucket : BucketMap := cacheSet emptyCache "bucket01" "us-east-1"

/-- A 403 bucket-location response decoding to `AccessDenied` with hint
`eu-west-1`. -/
def locDenied : LocRespIn :=
  { statusCode := 403, errCode := "AccessDenied", errRegion := "eu-west-1",
    xmlLoc := Except.ok "" }

/-- An OK bucket-location response whose constraint is `EU`. -/
def locEU : LocRespIn :=
  { statusCode := 200, errCode := "", errRegion := "", xmlLoc := Except.ok "EU" }

/-! ## Theorems -/

/-- Claim C9: after one or more `bucketLocationCache.Set(b, r)` calls with
the same arguments, the cache is observably the state of a single call:
`Get(b)` yields `(r, true)` and every other bucket's entry equals what a
single `Set` leaves there. -/
theorem bucketCache_set_idempotent (m : BucketMap) (b r : String) (n : Nat) (h : 1 ≤ n) :
    cacheGet (cacheSetIter m b r n) b = some r ∧
    ∀ b2, b2 ≠ b → cacheGet (cacheSetIter m b r n) b2 = cacheGet (cacheSet m b r) b2 := by
  induction n with
  | zero => exact absurd h (by decide)
  | succ k ih =>
    refine ⟨by simp [cacheSetIter, cacheSet, cacheGet], ?_⟩
    intro b2 hb2
    cases k with
    | zero => simp [cacheSetIter]
    | succ j =>
      have hprev := (ih (Nat.succ_le_succ (Nat.zero_le j))).2 b2 hb2
      simpa [cacheSetIter, cacheSet, cacheGet, hb2] using hprev

/-- Witness for C9 at a concrete cache, bucket, region, and repeat count. -/
theorem bucketCache_set_idempotent_witness :
    cacheGet (cacheSetIter emptyCache "bucket01" "eu-west-1" 3) "bucket01" = some "eu-west-1" ∧
    cacheGet (cacheSetIter emptyCache "bucket01" "eu-west-1" 3) "bucket02" =
      cacheGet (cacheSet emptyCache "bucket01" "eu-west-1") "bucket02" :=
  ⟨(bucketCache_set_idempotent emptyCache "bucket01" "eu-west-1" 3 (by decide)).1,
   (bucketCache_set_idempotent emptyCache "bucket01" "eu-west-1" 3 (by decide)).2
     "bucket02" (by decide)⟩

/-- Claim C10: `processBucketLocationResponse` on a non-OK response whose
decoded code is a region-mismatch code returns the region hint (defaulting
to `us-east-1` when the hint is empty) with a nil error; on an OK response
whose location constraint decodes, it returns `us-east-1` for an empty
constraint, `eu-west-1` for the constraint `EU`, and the constraint itself
otherwise. -/
theorem processBucketLocationResponse_spec (r : LocRespIn) :
    (r.statusCode ≠ 200 → regionMismatchCodes.contains r.errCode = true →
      processBucketLocationResponse (some r) =
        LocResult.ret (if r.errRegion = "" then "us-east-1" else r.errRegion) none) ∧
    (∀ lc, r.statusCode = 200 → r.xmlLoc = Except.ok lc →
      processBucketLocationResponse (some r) =
        LocResult.ret (if lc = "" then "us-east-1" else if lc = "EU" then "eu-west-1" else lc)
          none) := by
  constructor
  · intro h hc
    simp only [processBucketLocationResponse, if_pos h, hc, if_true]
    by_cases hr : r.errRegion = "" <;> simp [hr]
  · intro lc h hx
    simp only [processBucketLocationResponse, h, hx]
    by_cases h0 : lc = ""
    · simp [h0]
    · by_cases h1 : lc = "EU" <;> simp [h0, h1]

/-- Witness for C10: a 403 `AccessDenied` body with hint `eu-west-1`, and an
OK body whose constraint is `EU`. -/
theorem processBucketLocationResponse_spec_witness :
    processBucketLocationResponse (some locDenied) = LocResult.ret "eu-west-1" none ∧
    processBucketLocationResponse (some locEU) = LocResult.ret "eu-west-1" none := by
  constructor
  · have h := (processBucketLocationResponse_spec locDenied).1 (by decide) (by decide)
    simpa [locDenied] using h
  · have h := (processBucketLocationResponse_spec locEU).2 "EU" rfl rfl
    simpa using h

/-- Claim C7: `Client.do` never yields a nil response together with a nil
error; in particular a nil transport response without a transport error is
turned into the distinct invalid-argument "Response is empty" error, not a
gateway-reported one. -/
theorem clientDo_never_nil_nil (c : Client) (tresp : Option RawResp)
    (terr dumpErr : Option GoError) :
    ¬((clientDo c tresp terr dumpErr).1 = none ∧ (clientDo c tresp terr dumpErr).2 = none) ∧
    (terr = none → tresp = none →
      clientDo c tresp terr dumpErr =
        (none, some (GoError.invalidArgument ("Response is empty. " ++ reportIssue)))) := by
  constructor
  · cases terr with
    | some e =>
      cases e <;> simp only [clientDo] <;> first
        | (split <;> simp)
        | simp
    | none =>
      cases tresp with
      | none => simp [clientDo]
      | some r =>
        simp only [clientDo]
        split
        · cases dumpErr <;> simp
        · simp
  · intro h1 h2
    subst h1; subst h2
    simp [clientDo]

/-- Witness for C7: a nil transport response with no transport error. -/
theorem clientDo_never_nil_nil_witness :
    clientDo testClient none none none =
      (none, some (GoError.invalidArgument ("Response is empty. " ++ reportIssue))) :=
  (clientDo_never_nil_nil testClient none none none).2 rfl rfl

/-- Claim C1 (refuted — code bug): the source's `executeMethod` declares
`var req *http.Request` and never assigns it before `req = req.WithContext(ctx)`
(api.go lines 605-608), whose body copies `*req` through the nil receiver.
Even with a healthy transport and a bodyless call, the very first attempt
faults with a nil-pointer dereference instead of returning a typed value. -/
theorem executeMethod_first_attempt_nil_deref :
    executeMethod testClient "GET" mdPlain envOk = ExecResult.nilDerefFault 1 := rfl

/-- Claim C2: any loop iteration whose attempt receives a response with a
status in `successStatus` returns that response with a nil error at once,
with zero further attempts, whatever budget (`fuel`) remains. -/
theorem executeMethod_success_returns_immediately (region : String) (isR : Bool)
    (env : Nat → AttemptEnv) (fuel i : Nat) (md : RequestMetadata) (cache : BucketMap)
    (res : Option RespOut) (err : Option GoError) (r : RespIn)
    (hseek : (env i).seekFails = none)
    (hout : (env i).outcome = DoResult.response r)
    (hs : successStatus.contains r.statusCode = true) :
    execLoopFrom region isR false env (fuel + 1) i md cache res err =
      ExecResult.done (i + 1) (some (mkSuccessResp r)) none md cache := by
  have hs2 : r.statusCode ∈ successStatus := by simpa using hs
  have hstep : (execStep region isR false (env i) md cache).next =
      StepNext.ret (some (mkSuccessResp r)) none := by
    cases isR <;> simp [execStep, execStepCore, hseek, hout, hs2]
  simp [execLoopFrom, hstep]

/-- Witness for C2: a 200 response on the first attempt with budget 4 left. -/
theorem executeMethod_success_returns_immediately_witness :
    execLoopFrom "" false false envOk 4 0 mdPlain emptyCache none none =
      ExecResult.done 1 (some (mkSuccessResp resp200)) none mdPlain emptyCache :=
  executeMethod_success_returns_immediately "" false envOk 3 0 mdPlain emptyCache
    none none resp200 rfl rfl (by decide)

/-- The loop never begins more iterations than its remaining budget. -/
theorem execLoopFrom_attempts_le (region : String) (isR ip : Bool) (env : Nat → AttemptEnv) :
    ∀ (fuel i : Nat) (md : RequestMetadata) (cache : BucketMap) (res : Option RespOut)
      (err : Option GoError),
      attemptsOf (execLoopFrom region isR ip env fuel i md cache res err) ≤ i + fuel := by
  intro fuel
  induction fuel with
  | zero => intro i md cache res err; simp [execLoopFrom, attemptsOf]
  | succ k ih =>
    intro i md cache res err
    simp only [execLoopFrom]
    cases hstep : (execStep region isR ip (env i) md cache).next with
    | fault => simp [attemptsOf]
    | ret r e => simp [attemptsOf]
    | retry md2 cache2 r e =>
      have h := ih (i + 1) md2 cache2 r e
      simpa using Nat.le_trans h (by omega)

/-- Claim C3: a non-nil body that is not a seeker, or is a standard stream,
collapses the budget to exactly 1, and the whole call then makes at most one
attempt — on the faithful model and the spec-instantiated one alike. -/
theorem executeMethod_nonseekable_budget_one (ip : Bool) (c : Client) (method : String)
    (md : RequestMetadata) (env : Nat → AttemptEnv) (b : BodyInfo)
    (hb : md.contentBody = some b) (h : b.isSeeker = false ∨ b.isStdStream = true) :
    reqRetryOf md.contentBody = 1 ∧
    attemptsOf (executeMethodGen ip c method md env) ≤ 1 := by
  have hr : reqRetryOf md.contentBody = 1 := by
    rcases h with h | h <;> simp [reqRetryOf, hb, h]
  refine ⟨hr, ?_⟩
  have hle := execLoopFrom_attempts_le c.region (isRetryableOf md.contentBody) ip env
    (reqRetryOf md.contentBody) 0 md c.bucketLocCache none none
  rw [hr] at hle
  simpa [executeMethodGen, hr] using hle

/-- Witness for C3: a standard-stream body. -/
theorem executeMethod_nonseekable_budget_one_witness :
    reqRetryOf mdStdin.contentBody = 1 ∧
    attemptsOf (executeMethodGen true testClient "PUT" mdStdin envOk) ≤ 1 :=
  executeMethod_nonseekable_budget_one true testClient "PUT" mdStdin envOk stdinBody rfl
    (Or.inr rfl)

/-- Claim C4: with no fixed client region, a region-mismatch code, a named
bucket with a non-empty hint, and an existing cache entry, the iteration
overwrites the cache entry with the error's region and retries; the next
attempt resolves its region from the updated cache. -/
theorem executeMethod_region_mismatch_updates_cache (isR : Bool) (e : AttemptEnv)
    (md : RequestMetadata) (cache : BucketMap) (r : RespIn)
    (hseek : e.seekFails = none) (hout : e.outcome = DoResult.response r)
    (hs : successStatus.contains r.statusCode = false) (hread : r.readErr = none)
    (hc : regionMismatchCodes.contains r.errCode = true)
    (hb : md.bucketName ≠ "") (hr : r.errRegion ≠ "")
    (hcached : (cacheGet cache md.bucketName).isSome = true) :
    (execStep "" isR false e md cache).next =
      StepNext.retry md (cacheSet cache md.bucketName r.errRegion)
        (some (mkBufferedResp r 0)) none ∧
    cacheGet (cacheSet cache md.bucketName r.errRegion) md.bucketName = some r.errRegion ∧
    attemptRegion md (cacheSet cache md.bucketName r.errRegion) = r.errRegion ∧
    ∀ (env : Nat → AttemptEnv) (fuel i : Nat) (res : Option RespOut) (err : Option GoError),
      env i = e →
      execLoopFrom "" isR false env (fuel + 1) i md cache res err =
        execLoopFrom "" isR false env fuel (i + 1) md
          (cacheSet cache md.bucketName r.errRegion) (some (mkBufferedResp r 0)) none := by
  have hs2 : r.statusCode ∉ successStatus := by simpa using hs
  have hc2 : r.errCode ∈ regionMismatchCodes := by simpa using hc
  have hstep : (execStep "" isR false e md cache).next =
      StepNext.retry md (cacheSet cache md.bucketName r.errRegion)
        (some (mkBufferedResp r 0)) none := by
    cases isR <;>
      simp [execStep, execStepCore, regionFixNext, hseek, hout, hs2, hread, hc2, hb, hr,
        hcached, mkBufferedResp]
  refine ⟨hstep, by simp [cacheGet, cacheSet], by simp [attemptRegion, hb, cacheGet, cacheSet],
    ?_⟩
  intro env fuel i res err henv
  simp only [execLoopFrom, henv, hstep]

/-- Witness for C4: `AccessDenied` with hint `eu-west-1` for `bucket01`,
which is already cached as `us-east-1`. -/
theorem executeMethod_region_mismatch_updates_cache_witness :
    (execStep "" false false aDenied mdNamedBucket cacheWithBucket).next =
      StepNext.retry mdNamedBucket (cacheSet cacheWithBucket "bucket01" "eu-west-1")
        (some (mkBufferedResp respAccessDenied 0)) none ∧
    cacheGet (cacheSet cacheWithBucket "bucket01" "eu-west-1") "bucket01" = some "eu-west-1" ∧
    attemptRegion mdNamedBucket (cacheSet cacheWithBucket "bucket01" "eu-west-1") =
      "eu-west-1" ∧
    execLoopFrom "" false false envDenied 5 0 mdNamedBucket cacheWithBucket none none =
      execLoopFrom "" false false envDenied 4 1 mdNamedBucket
        (cacheSet cacheWithBucket "bucket01" "eu-west-1")
        (some (mkBufferedResp respAccessDenied 0)) none := by
  have h := executeMethod_region_mismatch_updates_cache false aDenied mdNamedBucket
    cacheWithBucket respAccessDenied rfl rfl (by decide) rfl (by decide) (by decide)
    (by decide) rfl
  exact ⟨h.1, h.2.1, h.2.2.1, h.2.2.2 envDenied 4 0 none none rfl⟩

/-- Counterexample to claim C5 as stated: client without fixed region, named
bucket `bucket01` with no cached entry, per-call region `us-east-1`, and an
`AccessDenied` response with hint `eu-west-1` on every attempt.  The claim
demands a one-time metadata-region update and a retry; the code instead
performs no region correction at all — one attempt, metadata unchanged, and
the buffered 403 response returned with a nil error. -/
theorem executeMethod_named_uncached_counterexample :
    attemptsOf (executeMethodSpec testClient "GET" mdNamedBucket envDenied) = 1 ∧
    finalMdOf (executeMethodSpec testClient "GET" mdNamedBucket envDenied) =
      some mdNamedBucket ∧
    mdNamedBucket.bucketLocation = "us-east-1" ∧
    respAccessDenied.errRegion = "eu-west-1" ∧
    finalPairOf (executeMethodSpec testClient "GET" mdNamedBucket envDenied) =
      some (some (mkBufferedResp respAccessDenied 0), none) :=
  ⟨rfl, rfl, rfl, rfl, rfl⟩

/-- Claim C5 (amended): the conditional region-correction retry applies to
the branch with no bucket name (or no hint), not to a named-but-uncached
bucket.  For an `AccessDenied` 403 with a non-empty hint and no fixed client
region: with an empty bucket name the iteration retries with the metadata
region set to the hint exactly when the hint differs from it, and otherwise
returns; with a named bucket that has no cached entry, no region correction
happens and the iteration returns the buffered response. -/
theorem executeMethod_region_hint_no_bucket (isR : Bool) (e : AttemptEnv)
    (md : RequestMetadata) (cache : BucketMap) (r : RespIn)
    (hseek : e.seekFails = none) (hout : e.outcome = DoResult.response r)
    (hstatus : r.statusCode = 403) (hread : r.readErr = none)
    (hcode : r.errCode = "AccessDenied") (hr : r.errRegion ≠ "") :
    (md.bucketName = "" →
      (execStep "" isR false e md cache).next =
        (if r.errRegion = md.bucketLocation then
          StepNext.ret (some (mkBufferedResp r 0)) none
        else
          StepNext.retry { md with bucketLocation := r.errRegion } cache
            (some (mkBufferedResp r 0)) none)) ∧
    (md.bucketName ≠ "" → cacheGet cache md.bucketName = none →
      (execStep "" isR false e md cache).next =
        StepNext.ret (some (mkBufferedResp r 0)) none) := by
  have hs2 : r.statusCode ∉ successStatus := by simp [successStatus, hstatus]
  have hc2 : r.errCode ∈ regionMismatchCodes := by simp [regionMismatchCodes, hcode]
  have hs3 : isS3CodeRetryable r.errCode = false := by simp [isS3CodeRetryable, hcode]
  have hs4 : isHTTPStatusRetryable r.statusCode = false := by
    simp [isHTTPStatusRetryable, hstatus]
  constructor
  · intro hb
    by_cases hloc : r.errRegion = md.bucketLocation
    · cases isR <;>
        simp [execStep, execStepCore, regionFixNext, classifyNext, hseek, hout, hs2, hread,
          hc2, hb, hloc, hs3, hs4, mkBufferedResp]
    · cases isR <;>
        simp [execStep, execStepCore, regionFixNext, classifyNext, hseek, hout, hs2, hread,
          hc2, hb, hloc, hs3, hs4, mkBufferedResp]
  · intro hb hnone
    cases isR <;>
      simp [execStep, execStepCore, regionFixNext, classifyNext, hseek, hout, hs2, hread,
        hc2, hb, hr, hnone, hs3, hs4, mkBufferedResp]

/-- Witness for the amended C5: no bucket name, per-call region `us-east-1`,
hint `eu-west-1` — the metadata region is updated and the attempt retried. -/
theorem executeMethod_region_hint_no_bucket_witness :
    (execStep "" false false aDenied mdNoBucket emptyCache).next =
      StepNext.retry { mdNoBucket with bucketLocation := "eu-west-1" } emptyCache
        (some (mkBufferedResp respAccessDenied 0)) none := by
  have h := (executeMethod_region_hint_no_bucket false aDenied mdNoBucket emptyCache
    respAccessDenied rfl rfl rfl rfl rfl (by decide)).1 rfl
  rw [h, if_neg (by decide)]
  rfl

/-- Claim C6: with a retryable body, a failing seek on any attempt returns
`(nil, seek error)` at once with no further attempts; likewise for the whole
(faithful) `executeMethod` when the first attempt's seek fails. -/
theorem executeMethod_seek_failure_aborts (region : String) (ip : Bool)
    (env : Nat → AttemptEnv) (fuel i : Nat) (md : RequestMetadata) (cache : BucketMap)
    (res : Option RespOut) (err : Option GoError) (msg : String)
    (hseek : (env i).seekFails = some msg) :
    execLoopFrom region true ip env (fuel + 1) i md cache res err =
      ExecResult.done (i + 1) none (some (GoError.seekError msg)) md cache ∧
    ∀ (c : Client) (method : String) (md2 : RequestMetadata) (b : BodyInfo),
      md2.contentBody = some b → b.isSeeker = true → b.isStdStream = false →
      (env 0).seekFails = some msg →
      executeMethod c method md2 env =
        ExecResult.done 1 none (some (GoError.seekError msg)) md2 c.bucketLocCache := by
  constructor
  · have hstep : (execStep region true ip (env i) md cache).next =
        StepNext.ret none (some (GoError.seekError msg)) := by
      simp [execStep, hseek]
    simp [execLoopFrom, hstep]
  · intro c method md2 b hb hseeker hstd h0
    have hretry : isRetryableOf md2.contentBody = true := by
      simp [isRetryableOf, hb, hseeker, hstd]
    have hbudget : reqRetryOf md2.contentBody = 4 + 1 := by
      simp [reqRetryOf, hb, hseeker, hstd, MaxRetry]
    have hstep : (execStep c.region true true (env 0) md2 c.bucketLocCache).next =
        StepNext.ret none (some (GoError.seekError msg)) := by
      simp [execStep, h0]
    simp [executeMethod, executeMethodGen, hretry, hbudget, execLoopFrom, hstep]

/-- Witness for C6: a failing seek with a seekable body, for the loop and
for the full faithful call. -/
theorem executeMethod_seek_failure_aborts_witness :
    execLoopFrom "" true true envSeekFail 4 0 mdSeekable emptyCache none none =
      ExecResult.done 1 none (some (GoError.seekError "seek failed")) mdSeekable emptyCache ∧
    executeMethod testClient "PUT" mdSeekable envSeekFail =
      ExecResult.done 1 none (some (GoError.seekError "seek failed")) mdSeekable
        testClient.bucketLocCache := by
  have h := executeMethod_seek_failure_aborts "" true envSeekFail 3 0 mdSeekable emptyCache
    none none "seek failed" rfl
  exact ⟨h.1, h.2 testClient "PUT" mdSeekable seekableBody rfl rfl rfl rfl⟩

/-- Every branch of the region-correction and classifier tail hands the same
(buffered) response onward, whether it returns or retries. -/
theorem stepResp_regionFixNext (region : String) (md : RequestMetadata) (cache : BucketMap)
    (ec er : String) (rf : RespOut) :
    stepResp (regionFixNext region md cache ec er rf) = some rf := by
  simp only [regionFixNext, classifyNext]
  split_ifs <;> simp [stepResp]

/-- Claim C8: a non-success attempt whose body read succeeds fully reads and
closes the original body, and both the value handed to the error decoder and
the response the iteration carries onward (returned or retried) are the
in-memory buffered copy at offset zero, holding the full body bytes. -/
theorem executeMethod_error_body_buffered (region : String) (isR : Bool) (e : AttemptEnv)
    (md : RequestMetadata) (cache : BucketMap) (r : RespIn)
    (hseek : e.seekFails = none) (hout : e.outcome = DoResult.response r)
    (hs : successStatus.contains r.statusCode = false) (hread : r.readErr = none) :
    (execStep region isR false e md cache).decoderInput = some (mkBufferedResp r 0) ∧
    stepResp (execStep region isR false e md cache).next = some (mkBufferedResp r 0) ∧
    (mkBufferedResp r 0).origFullyRead = true ∧
    (mkBufferedResp r 0).origClosed = true ∧
    (mkBufferedResp r 0).body = BodyState.buffered r.bodyBytes 0 := by
  have hs2 : r.statusCode ∉ successStatus := by simpa using hs
  have hcore : execStep region isR false e md cache =
      execStepCore region false e.outcome md cache := by
    cases isR <;> simp [execStep, hseek]
  rw [hcore]
  refine ⟨?_, ?_, rfl, rfl, rfl⟩
  · simp [execStepCore, hout, hs2, hread]
  · simp [execStepCore, hout, hs2, hread, stepResp_regionFixNext, mkBufferedResp]

/-- Witness for C8: the 403 `AccessDenied` response. -/
theorem executeMethod_error_body_buffered_witness :
    (execStep "" false false aDenied mdNamedBucket emptyCache).decoderInput =
      some (mkBufferedResp respAccessDenied 0) ∧
    stepResp (execStep "" false false aDenied mdNamedBucket emptyCache).next =
      some (mkBufferedResp respAccessDenied 0) :=
  ⟨(executeMethod_error_body_buffered "" false aDenied mdNamedBucket emptyCache
      respAccessDenied rfl rfl (by decide) rfl).1,
   (executeMethod_error_body_buffered "" false aDenied mdNamedBucket emptyCache
      respAccessDenied rfl rfl (by decide) rfl).2.1⟩
